import Mathlib

/-
Verification of the pbkdf2-pw password hasher (TypeScript source in
src/src/index.ts, built JavaScript artifact in src/unnamed/part_000).

The development shallowly embeds the library: JavaScript values that the
code inspects with typeof are an inductive type, buffers are lists of
bytes (naturals below 256), the external primitives (secure random bytes,
pbkdf2, base64) are explicit parameters or executable functions, and every
asynchronous step becomes a pure function from the shared request object
to an error slot, the mutated request and the list of external calls it
performed.  A whole hasher invocation returns the final callback outcome
(or a crash, when a continuation throws) together with the trace of
external calls, so that sequencing claims are statements about traces.
-/

namespace Pbkdf2Pw

/-- An error value produced by one of the external primitives
(secure random source or key-derivation primitive). -/
structure JSError where
  msg : String
deriving DecidableEq, Repr

/-- The JavaScript values the library stores in the request object:
strings, buffers (raw byte sequences) and undefined. -/
inductive JSVal where
  | undef
  | str (s : String)
  | buf (bytes : List Nat)
deriving DecidableEq, Repr

/-- Mirrors the source's typeof x === 'string' test. -/
def JSVal.isString : JSVal → Bool
  | .str _ => true
  | _ => false

/-- Extracts the string payload (only used where the source has already
established the value is a string). -/
def JSVal.asString : JSVal → String
  | .str s => s
  | _ => ""

/-- The request object of src/src/index.ts (interface IOptions): a
password and a salt slot, mutated in place by the pipeline steps. -/
structure IOptions where
  password : JSVal
  salt : JSVal
deriving DecidableEq, Repr

/-! ### Base64 (the Buffer base64 codec used by the source)

The source converts buffers to base64 with Buffer.prototype.toString
and decodes supplied salts with Buffer.from(s, 'base64').  The encoder
below is the standard padded RFC 4648 encoder; the decoder drops
non-alphabet characters (as Node does) and decodes the sextets. -/

/-- The base64 alphabet in order. -/
def b64Alphabet : List Char :=
  String.data "ABCDEFGHIJKLMNOPQRSTUVWXYZabcdefghijklmnopqrstuvwxyz0123456789+/"

/-- The character for a sextet value below 64. -/
def b64Char (n : Nat) : Char := b64Alphabet.getD n 'A'

/-- The sextet value of an alphabet character, none for every other
character (padding included). -/
def b64Index? (c : Char) : Option Nat := b64Alphabet.findIdx? (fun d => d = c)

/-- Encode a byte list three bytes at a time into four characters,
padding the final partial group with '='. -/
def encodeGroups : List Nat → List Char
  | x :: y :: z :: rest =>
      b64Char (x / 4) :: b64Char ((x % 4) * 16 + y / 16) ::
      b64Char ((y % 16) * 4 + z / 64) :: b64Char (z % 64) :: encodeGroups rest
  | [x, y] => [b64Char (x / 4), b64Char ((x % 4) * 16 + y / 16), b64Char ((y % 16) * 4), '=']
  | [x] => [b64Char (x / 4), b64Char ((x % 4) * 16), '=', '=']
  | [] => []

/-- Buffer.prototype.toString with encoding base64. -/
def base64encode (bytes : List Nat) : String := String.mk (encodeGroups bytes)

/-- Decode a list of sextet values four at a time into three bytes; a
trailing group of two or three sextets yields one or two bytes, a lone
trailing sextet is dropped (as Node's decoder does). -/
def decodeSextets : List Nat → List Nat
  | a :: b :: c :: d :: rest =>
      (a * 4 + b / 16) :: ((b % 16) * 16 + c / 4) :: ((c % 4) * 64 + d) :: decodeSextets rest
  | [a, b, c] => [a * 4 + b / 16, (b % 16) * 16 + c / 4]
  | [a, b] => [a * 4 + b / 16]
  | [_] => []
  | [] => []

/-- Buffer.from(s, 'base64'): keep the alphabet characters, decode the
sextets. -/
def base64decode (s : String) : List Nat :=
  decodeSextets (s.data.filterMap b64Index?)

/-- A byte list is well formed when every entry is an actual byte. -/
def ValidBytes (bytes : List Nat) : Prop := ∀ x ∈ bytes, x < 256

theorem b64Index?_b64Char : ∀ n, n < 64 → b64Index? (b64Char n) = some n := by decide

theorem b64Index?_pad : b64Index? '=' = none := by decide

theorem decode_encode : ∀ bytes : List Nat, ValidBytes bytes →
    base64decode (base64encode bytes) = bytes
  | [], _ => rfl
  | [x], h => by
    have hx : x < 256 := h x (by simp)
    have e1 := b64Index?_b64Char (x / 4) (by omega)
    have e2 := b64Index?_b64Char ((x % 4) * 16) (by omega)
    simp only [base64decode, base64encode, encodeGroups, String.data, List.filterMap_cons,
      e1, e2, b64Index?_pad, List.filterMap_nil, decodeSextets]
    simp only [List.cons.injEq, and_true]
    omega
  | [x, y], h => by
    have hx : x < 256 := h x (by simp)
    have hy : y < 256 := h y (by simp)
    have e1 := b64Index?_b64Char (x / 4) (by omega)
    have e2 := b64Index?_b64Char ((x % 4) * 16 + y / 16) (by omega)
    have e3 := b64Index?_b64Char ((y % 16) * 4) (by omega)
    simp only [base64decode, base64encode, encodeGroups, String.data, List.filterMap_cons,
      e1, e2, e3, b64Index?_pad, List.filterMap_nil, decodeSextets]
    simp only [List.cons.injEq, and_true]
    omega
  | x :: y :: z :: rest, h => by
    have hx : x < 256 := h x (by simp)
    have hy : y < 256 := h y (by simp)
    have hz : z < 256 := h z (by simp)
    have ih := decode_encode rest (fun a ha => h a (by simp [ha]))
    have e1 := b64Index?_b64Char (x / 4) (by omega)
    have e2 := b64Index?_b64Char ((x % 4) * 16 + y / 16) (by omega)
    have e3 := b64Index?_b64Char ((y % 16) * 4 + z / 64) (by omega)
    have e4 := b64Index?_b64Char (z % 64) (by omega)
    simp only [base64decode, base64encode, encodeGroups, String.data, List.filterMap_cons,
      e1, e2, e3, e4] at ih ⊢
    simp only [decodeSextets, ih, List.cons.injEq, and_true]
    refine ⟨by omega, by omega, by omega⟩

theorem decode_encode_length (bytes : List Nat) (h : ValidBytes bytes) :
    (base64decode (base64encode bytes)).length = bytes.length := by
  rw [decode_encode bytes h]

/-! ### Configuration -/

/-- The options object accepted by build (interface GenerateOption).  At
the JavaScript runtime any of its properties may be absent, which reads
as undefined; none models that. -/
structure GenerateOption where
  saltLength : Option Nat
  iterations : Option Nat
  keyLength : Option Nat
  digest : Option String
deriving DecidableEq, Repr

/-- The four values resolved by build's four conditional expressions.
A field is none when the corresponding JavaScript value is undefined. -/
structure Config where
  saltLength : Option Nat
  iterations : Option Nat
  keyLength : Option Nat
  digest : Option String
deriving DecidableEq, Repr

/-! ### External primitives and observable behaviour -/

/-- The secure random source, crypto.randomBytes: asked for a size (an
undefined size is modelled as none) it yields bytes or an error. -/
abbrev RandomSource := Option Nat → Except JSError (List Nat)

/-- The key-derivation primitive, crypto.pbkdf2: password, salt,
iterations, key length and an optional digest argument (none when the
five-argument form without a digest is used).  The result is the value
handed to the pbkdf2 callback, a buffer or a binary string. -/
abbrev Kdf := JSVal → JSVal → Option Nat → Option Nat → Option String → Except JSError JSVal

/-- One call to an external primitive, recorded in the trace. -/
inductive ExtCall where
  | randomBytesCall (size : Option Nat)
  | kdfCall (password salt : JSVal) (iterations keyLength : Option Nat) (digest : Option String)
deriving DecidableEq, Repr

/-- Recognizes a random-source call in a trace. -/
def ExtCall.isRandom : ExtCall → Bool
  | .randomBytesCall _ => true
  | _ => false

/-- How an invocation of the hasher ends: either the completion callback
fires with the four callback arguments, or a continuation throws (as the
source does when it calls toString on an undefined hash) and the callback
never fires. -/
inductive Outcome where
  | called (err : Option JSError) (password salt hash : JSVal)
  | crashed (msg : String)
deriving DecidableEq, Repr

/-- Whether the completion callback was invoked at all. -/
def Outcome.callbackInvoked : Outcome → Bool
  | .called _ _ _ _ => true
  | .crashed _ => false

/-- The message of the TypeError thrown when the source evaluates
hash.toString with hash undefined. -/
def tsUndefMsg : String := "TypeError: hash is undefined"

/-- x.toString as applied by the source to the salt and hash slots:
a buffer is base64-encoded, a string returns itself (String.prototype
toString ignores the encoding argument), undefined throws. -/
def jsToStringBase64 : JSVal → Except String String
  | .buf bytes => .ok (base64encode bytes)
  | .str s => .ok s
  | .undef => .error tsUndefMsg

/-- Buffer.from(s, 'binary'): each char contributes its code point
modulo 256. -/
def binaryBytes (s : String) : List Nat := s.data.map (fun c => c.toNat % 256)

/-- The normalization at the top of both derivation continuations: a
string result is reinterpreted as raw binary bytes, everything else is
kept. -/
def normalizeHash : JSVal → JSVal
  | .str s => .buf (binaryBytes s)
  | v => v

/-! ### The pipeline combinator

The two pipelines passNeeded and saltNeeded are built with the external
fastfall library (fastfall in src/src/index.ts, fastfall-ts in the built
artifact), whose source is not part of this repository. -/

/-- An intermediate pipeline step: from the shared request object to the
error it passes to its continuation, the request as it left it, and the
external calls it made. -/
abbrev Step := IOptions → Option JSError × IOptions × List ExtCall

/-- The terminal derivation step, whose continuation is the overall
completion callback. -/
abbrev Terminal := IOptions → Outcome × List ExtCall

/-- Modelled from the spec: the fastfall waterfall combinator (external
dependency, not in this repository), per the step-pipeline contract of
spec section 4.3 — steps run strictly in order, each feeding the mutated
request forward; on the first step failure no later step runs and the
completion callback is invoked with that failure and no result values;
the terminal step's continuation is the completion callback itself. -/
def fastfall : List Step → Terminal → IOptions → Outcome × List ExtCall
  | [], term, opts => term opts
  | step :: rest, term, opts =>
    match step opts with
    | (some e, _, calls) => (Outcome.called (some e) .undef .undef .undef, calls)
    | (none, opts1, calls) =>
      let next := fastfall rest term opts1
      (next.1, calls ++ next.2)

/-! ### src/src/index.ts -/

namespace Index

/-- The four resolution expressions at the top of build:
options ? options.saltLength : 64, and so on.  When the options object is
absent every default applies; when it is present each property is read
off the object verbatim (and is undefined when the caller left it out). -/
def resolveConfig : Option GenerateOption → Config
  | none => ⟨some 64, some 10000, some 128, some "sha1"⟩
  | some o => ⟨o.saltLength, o.iterations, o.keyLength, o.digest⟩

/-- build: resolve the configuration, then throw synchronously when a
non-default digest is requested on a runtime without digest support
(supportsDigest is the process-version capability flag). -/
def build (supportsDigest : Bool) (options : Option GenerateOption) : Except String Config :=
  let cfg := resolveConfig options
  if cfg.digest ≠ some "sha1" ∧ supportsDigest = false then
    Except.error "v0.10 does not support setting a digest"
  else
    Except.ok cfg

/-- Whether build threw. -/
def buildThrew (supportsDigest : Bool) (options : Option GenerateOption) : Bool :=
  match build supportsDigest options with
  | .error _ => true
  | .ok _ => false

/-- genPass: draw 10 random bytes; when a buffer was produced store it
base64-encoded as the password; hand the error (null on success) and the
request to the continuation. -/
def genPass (rnd : RandomSource) : Step := fun opts =>
  match rnd (some 10) with
  | .ok buffer =>
      (none, { opts with password := JSVal.str (base64encode buffer) }, [.randomBytesCall (some 10)])
  | .error e => (some e, opts, [.randomBytesCall (some 10)])

/-- genSalt: draw saltLength random bytes and store the buffer as the
salt unconditionally (on failure the buffer argument is undefined, so
the salt slot becomes undefined); hand the error and the request on. -/
def genSalt (cfg : Config) (rnd : RandomSource) : Step := fun opts =>
  match rnd cfg.saltLength with
  | .ok buf => (none, { opts with salt := JSVal.buf buf }, [.randomBytesCall cfg.saltLength])
  | .error e => (some e, { opts with salt := JSVal.undef }, [.randomBytesCall cfg.saltLength])

/-- genHashWithDigest: call pbkdf2 with the digest; in the continuation
normalize a string hash to binary bytes, then invoke the callback with
the error, the password, the base64 salt and the base64 hash.  The
callback arguments are evaluated left to right, so a toString on an
undefined slot throws before the callback fires. -/
def genHashWithDigest (cfg : Config) (kdf : Kdf) : Terminal := fun opts =>
  let calls := [ExtCall.kdfCall opts.password opts.salt cfg.iterations cfg.keyLength cfg.digest]
  match kdf opts.password opts.salt cfg.iterations cfg.keyLength cfg.digest with
  | .error _ =>
    match jsToStringBase64 opts.salt with
    | .error m => (.crashed m, calls)
    | .ok _ => (.crashed tsUndefMsg, calls)
  | .ok hash =>
    match jsToStringBase64 opts.salt, jsToStringBase64 (normalizeHash hash) with
    | .error m, _ => (.crashed m, calls)
    | .ok _, .error m => (.crashed m, calls)
    | .ok saltS, .ok hashS => (.called none opts.password (.str saltS) (.str hashS), calls)

/-- genHashWithoutDigest: identical continuation, but the pbkdf2 call
uses the five-argument form with no digest argument. -/
def genHashWithoutDigest (cfg : Config) (kdf : Kdf) : Terminal := fun opts =>
  let calls := [ExtCall.kdfCall opts.password opts.salt cfg.iterations cfg.keyLength none]
  match kdf opts.password opts.salt cfg.iterations cfg.keyLength none with
  | .error _ =>
    match jsToStringBase64 opts.salt with
    | .error m => (.crashed m, calls)
    | .ok _ => (.crashed tsUndefMsg, calls)
  | .ok hash =>
    match jsToStringBase64 opts.salt, jsToStringBase64 (normalizeHash hash) with
    | .error m, _ => (.crashed m, calls)
    | .ok _, .error m => (.crashed m, calls)
    | .ok saltS, .ok hashS => (.called none opts.password (.str saltS) (.str hashS), calls)

/-- The hasher closure returned by build: when the password is not a
string run the full pipeline, otherwise when the salt is not a string
run the salt-only pipeline, otherwise decode the supplied base64 salt to
a buffer and derive directly.  genHash is the capability-selected
derivation step. -/
def hasher (cfg : Config) (supportsDigest : Bool) (rnd : RandomSource) (kdf : Kdf)
    (opts : IOptions) : Outcome × List ExtCall :=
  let genHash := if supportsDigest then genHashWithDigest cfg kdf else genHashWithoutDigest cfg kdf
  if opts.password.isString = false then
    fastfall [genPass rnd, genSalt cfg rnd] genHash opts
  else if opts.salt.isString = false then
    fastfall [genSalt cfg rnd] genHash opts
  else
    genHash { opts with salt := JSVal.buf (base64decode opts.salt.asString) }

end Index

/-! ### The built artifact src/unnamed/part_000 (compiled dist JavaScript)

Its genPass draws the random bytes synchronously under try/catch, so on
failure the password assignment is skipped, and both of its derivation
functions pass the configured digest to pbkdf2. -/

namespace Dist

/-- genPass of the built artifact: try randomBytes(10), store the base64
password only on success, finally hand the error (null on success) and
the request to the continuation. -/
def genPass (rnd : RandomSource) : Step := fun opts =>
  match rnd (some 10) with
  | .ok buffer =>
      (none, { opts with password := JSVal.str (base64encode buffer) }, [.randomBytesCall (some 10)])
  | .error e => (some e, opts, [.randomBytesCall (some 10)])

/-- genSalt of the built artifact: try randomBytes(saltLength), store
the buffer as the salt only on success, finally hand the error on. -/
def genSalt (cfg : Config) (rnd : RandomSource) : Step := fun opts =>
  match rnd cfg.saltLength with
  | .ok buf => (none, { opts with salt := JSVal.buf buf }, [.randomBytesCall cfg.saltLength])
  | .error e => (some e, opts, [.randomBytesCall cfg.saltLength])

/-- genHashWithDigest of the built artifact: pbkdf2 with the configured
digest, then the same normalize-and-encode continuation as the source. -/
def genHashWithDigest (cfg : Config) (kdf : Kdf) : Terminal := fun opts =>
  let calls := [ExtCall.kdfCall opts.password opts.salt cfg.iterations cfg.keyLength cfg.digest]
  match kdf opts.password opts.salt cfg.iterations cfg.keyLength cfg.digest with
  | .error _ =>
    match jsToStringBase64 opts.salt with
    | .error m => (.crashed m, calls)
    | .ok _ => (.crashed tsUndefMsg, calls)
  | .ok hash =>
    match jsToStringBase64 opts.salt, jsToStringBase64 (normalizeHash hash) with
    | .error m, _ => (.crashed m, calls)
    | .ok _, .error m => (.crashed m, calls)
    | .ok saltS, .ok hashS => (.called none opts.password (.str saltS) (.str hashS), calls)

/-- genHashWithoutDigest of the built artifact: the body also passes the
configured digest to pbkdf2 — it is character for character the body of
genHashWithDigest. -/
def genHashWithoutDigest (cfg : Config) (kdf : Kdf) : Terminal := fun opts =>
  let calls := [ExtCall.kdfCall opts.password opts.salt cfg.iterations cfg.keyLength cfg.digest]
  match kdf opts.password opts.salt cfg.iterations cfg.keyLength cfg.digest with
  | .error _ =>
    match jsToStringBase64 opts.salt with
    | .error m => (.crashed m, calls)
    | .ok _ => (.crashed tsUndefMsg, calls)
  | .ok hash =>
    match jsToStringBase64 opts.salt, jsToStringBase64 (normalizeHash hash) with
    | .error m, _ => (.crashed m, calls)
    | .ok _, .error m => (.crashed m, calls)
    | .ok saltS, .ok hashS => (.called none opts.password (.str saltS) (.str hashS), calls)

end Dist

/-! ### Helper lemmas -/

/-- The raw bytes of a pbkdf2 result after the source's normalization. -/
def hashBytes : JSVal → List Nat
  | .buf bytes => bytes
  | .str s => binaryBytes s
  | .undef => []

namespace Index

theorem genHashWithDigest_called_iff (cfg : Config) (kdf : Kdf) (pw : JSVal) (bs : List Nat)
    (err : Option JSError) (p s h : JSVal) (tr : List ExtCall) :
    genHashWithDigest cfg kdf ⟨pw, JSVal.buf bs⟩ = (.called err p s h, tr) ↔
    ∃ out, kdf pw (JSVal.buf bs) cfg.iterations cfg.keyLength cfg.digest = .ok out ∧
      out ≠ JSVal.undef ∧ err = none ∧ p = pw ∧ s = JSVal.str (base64encode bs) ∧
      h = JSVal.str (base64encode (hashBytes out)) ∧
      tr = [ExtCall.kdfCall pw (JSVal.buf bs) cfg.iterations cfg.keyLength cfg.digest] := by
  cases hk : kdf pw (JSVal.buf bs) cfg.iterations cfg.keyLength cfg.digest with
  | error e => simp [genHashWithDigest, hk, jsToStringBase64]
  | ok out =>
    cases out with
    | undef => simp [genHashWithDigest, hk, jsToStringBase64, normalizeHash]
    | str s0 =>
      simp [genHashWithDigest, hk, jsToStringBase64, normalizeHash, hashBytes, eq_comm, and_assoc]
    | buf b0 =>
      simp [genHashWithDigest, hk, jsToStringBase64, normalizeHash, hashBytes, eq_comm, and_assoc]

theorem genHashWithoutDigest_called_iff (cfg : Config) (kdf : Kdf) (pw : JSVal) (bs : List Nat)
    (err : Option JSError) (p s h : JSVal) (tr : List ExtCall) :
    genHashWithoutDigest cfg kdf ⟨pw, JSVal.buf bs⟩ = (.called err p s h, tr) ↔
    ∃ out, kdf pw (JSVal.buf bs) cfg.iterations cfg.keyLength none = .ok out ∧
      out ≠ JSVal.undef ∧ err = none ∧ p = pw ∧ s = JSVal.str (base64encode bs) ∧
      h = JSVal.str (base64encode (hashBytes out)) ∧
      tr = [ExtCall.kdfCall pw (JSVal.buf bs) cfg.iterations cfg.keyLength none] := by
  cases hk : kdf pw (JSVal.buf bs) cfg.iterations cfg.keyLength none with
  | error e => simp [genHashWithoutDigest, hk, jsToStringBase64]
  | ok out =>
    cases out with
    | undef => simp [genHashWithoutDigest, hk, jsToStringBase64, normalizeHash]
    | str s0 =>
      simp [genHashWithoutDigest, hk, jsToStringBase64, normalizeHash, hashBytes, eq_comm, and_assoc]
    | buf b0 =>
      simp [genHashWithoutDigest, hk, jsToStringBase64, normalizeHash, hashBytes, eq_comm, and_assoc]

theorem genHashWithDigest_kdf_error (cfg : Config) (kdf : Kdf) (pw : JSVal) (bs : List Nat)
    (e : JSError)
    (hk : kdf pw (JSVal.buf bs) cfg.iterations cfg.keyLength cfg.digest = .error e) :
    genHashWithDigest cfg kdf ⟨pw, JSVal.buf bs⟩ =
      (.crashed tsUndefMsg,
       [ExtCall.kdfCall pw (JSVal.buf bs) cfg.iterations cfg.keyLength cfg.digest]) := by
  simp [genHashWithDigest, hk, jsToStringBase64]

theorem genHashWithoutDigest_kdf_error (cfg : Config) (kdf : Kdf) (pw : JSVal) (bs : List Nat)
    (e : JSError)
    (hk : kdf pw (JSVal.buf bs) cfg.iterations cfg.keyLength none = .error e) :
    genHashWithoutDigest cfg kdf ⟨pw, JSVal.buf bs⟩ =
      (.crashed tsUndefMsg,
       [ExtCall.kdfCall pw (JSVal.buf bs) cfg.iterations cfg.keyLength none]) := by
  simp [genHashWithoutDigest, hk, jsToStringBase64]

theorem full_pipeline_ok (cfg : Config) (rnd : RandomSource) (gh : Terminal)
    (bp bs : List Nat) (opts : IOptions)
    (h10 : rnd (some 10) = .ok bp) (hsl : rnd cfg.saltLength = .ok bs) :
    fastfall [genPass rnd, genSalt cfg rnd] gh opts =
      ((gh ⟨JSVal.str (base64encode bp), JSVal.buf bs⟩).1,
       ExtCall.randomBytesCall (some 10) :: ExtCall.randomBytesCall cfg.saltLength ::
         (gh ⟨JSVal.str (base64encode bp), JSVal.buf bs⟩).2) := by
  simp [fastfall, genPass, genSalt, h10, hsl]

theorem salt_pipeline_ok (cfg : Config) (rnd : RandomSource) (gh : Terminal)
    (bs : List Nat) (opts : IOptions) (hsl : rnd cfg.saltLength = .ok bs) :
    fastfall [genSalt cfg rnd] gh opts =
      ((gh ⟨opts.password, JSVal.buf bs⟩).1,
       ExtCall.randomBytesCall cfg.saltLength :: (gh ⟨opts.password, JSVal.buf bs⟩).2) := by
  simp [fastfall, genSalt, hsl]

theorem full_pipeline_passFail (cfg : Config) (rnd : RandomSource) (gh : Terminal)
    (opts : IOptions) (e : JSError) (h10 : rnd (some 10) = .error e) :
    fastfall [genPass rnd, genSalt cfg rnd] gh opts =
      (.called (some e) .undef .undef .undef, [.randomBytesCall (some 10)]) := by
  simp [fastfall, genPass, h10]

theorem full_pipeline_saltFail (cfg : Config) (rnd : RandomSource) (gh : Terminal)
    (opts : IOptions) (bp : List Nat) (e : JSError)
    (h10 : rnd (some 10) = .ok bp) (hsl : rnd cfg.saltLength = .error e) :
    fastfall [genPass rnd, genSalt cfg rnd] gh opts =
      (.called (some e) .undef .undef .undef,
       [.randomBytesCall (some 10), .randomBytesCall cfg.saltLength]) := by
  simp [fastfall, genPass, genSalt, h10, hsl]

theorem salt_pipeline_fail (cfg : Config) (rnd : RandomSource) (gh : Terminal)
    (opts : IOptions) (e : JSError) (hsl : rnd cfg.saltLength = .error e) :
    fastfall [genSalt cfg rnd] gh opts =
      (.called (some e) .undef .undef .undef, [.randomBytesCall cfg.saltLength]) := by
  simp [fastfall, genSalt, hsl]

theorem genHashSel_called_iff (cfg : Config) (kdf : Kdf) (sup : Bool) (pw : JSVal)
    (bs : List Nat) (err : Option JSError) (p s h : JSVal) (tr : List ExtCall) :
    (if sup then genHashWithDigest cfg kdf else genHashWithoutDigest cfg kdf) ⟨pw, JSVal.buf bs⟩
        = (.called err p s h, tr) ↔
    ∃ out, kdf pw (JSVal.buf bs) cfg.iterations cfg.keyLength
        (if sup then cfg.digest else none) = .ok out ∧
      out ≠ JSVal.undef ∧ err = none ∧ p = pw ∧ s = JSVal.str (base64encode bs) ∧
      h = JSVal.str (base64encode (hashBytes out)) ∧
      tr = [ExtCall.kdfCall pw (JSVal.buf bs) cfg.iterations cfg.keyLength
              (if sup then cfg.digest else none)] := by
  cases sup
  · simpa using genHashWithoutDigest_called_iff cfg kdf pw bs err p s h tr
  · simpa using genHashWithDigest_called_iff cfg kdf pw bs err p s h tr

theorem genHashSel_kdf_error (cfg : Config) (kdf : Kdf) (sup : Bool) (pw : JSVal)
    (bs : List Nat) (e : JSError)
    (hk : kdf pw (JSVal.buf bs) cfg.iterations cfg.keyLength
        (if sup then cfg.digest else none) = .error e) :
    (if sup then genHashWithDigest cfg kdf else genHashWithoutDigest cfg kdf)
        ⟨pw, JSVal.buf bs⟩ =
      (.crashed tsUndefMsg,
       [ExtCall.kdfCall pw (JSVal.buf bs) cfg.iterations cfg.keyLength
          (if sup then cfg.digest else none)]) := by
  cases sup
  · simpa using genHashWithoutDigest_kdf_error cfg kdf pw bs e (by simpa using hk)
  · simpa using genHashWithDigest_kdf_error cfg kdf pw bs e (by simpa using hk)

theorem hasher_eq_full (cfg : Config) (sup : Bool) (rnd : RandomSource) (kdf : Kdf)
    (opts : IOptions) (hp : opts.password.isString = false) :
    hasher cfg sup rnd kdf opts =
      fastfall [genPass rnd, genSalt cfg rnd]
        (if sup then genHashWithDigest cfg kdf else genHashWithoutDigest cfg kdf) opts := by
  simp [hasher, hp]

theorem hasher_eq_saltOnly (cfg : Config) (sup : Bool) (rnd : RandomSource) (kdf : Kdf)
    (opts : IOptions) (hp : opts.password.isString = true) (hs : opts.salt.isString = false) :
    hasher cfg sup rnd kdf opts =
      fastfall [genSalt cfg rnd]
        (if sup then genHashWithDigest cfg kdf else genHashWithoutDigest cfg kdf) opts := by
  simp [hasher, hp, hs]

theorem hasher_eq_direct (cfg : Config) (sup : Bool) (rnd : RandomSource) (kdf : Kdf)
    (opts : IOptions) (hp : opts.password.isString = true) (hs : opts.salt.isString = true) :
    hasher cfg sup rnd kdf opts =
      (if sup then genHashWithDigest cfg kdf else genHashWithoutDigest cfg kdf)
        { opts with salt := JSVal.buf (base64decode opts.salt.asString) } := by
  simp [hasher, hp, hs]

theorem genHashWithDigest_trace (cfg : Config) (kdf : Kdf) (opts : IOptions) :
    (genHashWithDigest cfg kdf opts).2 =
      [ExtCall.kdfCall opts.password opts.salt cfg.iterations cfg.keyLength cfg.digest] := by
  unfold genHashWithDigest
  split <;> split <;> rfl

theorem genHashWithoutDigest_trace (cfg : Config) (kdf : Kdf) (opts : IOptions) :
    (genHashWithoutDigest cfg kdf opts).2 =
      [ExtCall.kdfCall opts.password opts.salt cfg.iterations cfg.keyLength none] := by
  unfold genHashWithoutDigest
  split <;> split <;> rfl

theorem genHashSel_trace (cfg : Config) (kdf : Kdf) (sup : Bool) (opts : IOptions) :
    ((if sup then genHashWithDigest cfg kdf else genHashWithoutDigest cfg kdf) opts).2 =
      [ExtCall.kdfCall opts.password opts.salt cfg.iterations cfg.keyLength
        (if sup then cfg.digest else none)] := by
  cases sup
  · simpa using genHashWithoutDigest_trace cfg kdf opts
  · simpa using genHashWithDigest_trace cfg kdf opts

end Index

/-- The random source fails at the step where the pipeline consumes it:
either the generate-password draw fails, or it succeeds and the
generate-salt draw fails, or (with a supplied password and no salt) the
generate-salt draw fails; the index is the trace of external calls the
invocation has made up to and including the failing one. -/
inductive RandomFailure (cfg : Config) (rnd : RandomSource) (opts : IOptions) (e : JSError) :
    List ExtCall → Prop where
  | passFailed : opts.password.isString = false → rnd (some 10) = .error e →
      RandomFailure cfg rnd opts e [.randomBytesCall (some 10)]
  | saltFailedAfterPass (bp : List Nat) : opts.password.isString = false →
      rnd (some 10) = .ok bp → rnd cfg.saltLength = .error e →
      RandomFailure cfg rnd opts e
        [.randomBytesCall (some 10), .randomBytesCall cfg.saltLength]
  | saltFailed : opts.password.isString = true → opts.salt.isString = false →
      rnd cfg.saltLength = .error e →
      RandomFailure cfg rnd opts e [.randomBytesCall cfg.saltLength]

/-! ### Claims -/

/-- C1: path selection follows the decision table.  When the password is
not a string the full pipeline runs regardless of the salt (generate
password, generate salt, derive); when only the salt is not a string the
salt-only pipeline runs (generate salt, derive); when both are strings
the supplied salt is decoded from base64 to raw bytes and derivation runs
directly — shown by the exact trace of external calls each path makes. -/
theorem c1_decision_table (cfg : Config) (sup : Bool) (rnd : RandomSource) (kdf : Kdf)
    (opts : IOptions) (bp bs : List Nat) :
    (opts.password.isString = false → rnd (some 10) = .ok bp →
      rnd cfg.saltLength = .ok bs →
      (Index.hasher cfg sup rnd kdf opts).2 =
        [ExtCall.randomBytesCall (some 10), ExtCall.randomBytesCall cfg.saltLength,
         ExtCall.kdfCall (JSVal.str (base64encode bp)) (JSVal.buf bs) cfg.iterations
           cfg.keyLength (if sup then cfg.digest else none)]) ∧
    (opts.password.isString = true → opts.salt.isString = false →
      rnd cfg.saltLength = .ok bs →
      (Index.hasher cfg sup rnd kdf opts).2 =
        [ExtCall.randomBytesCall cfg.saltLength,
         ExtCall.kdfCall opts.password (JSVal.buf bs) cfg.iterations cfg.keyLength
           (if sup then cfg.digest else none)]) ∧
    (opts.password.isString = true → opts.salt.isString = true →
      (Index.hasher cfg sup rnd kdf opts).2 =
        [ExtCall.kdfCall opts.password (JSVal.buf (base64decode opts.salt.asString))
           cfg.iterations cfg.keyLength (if sup then cfg.digest else none)]) := by
  refine ⟨fun hp h10 hsl => ?_, fun hp hs hsl => ?_, fun hp hs => ?_⟩
  · rw [Index.hasher_eq_full cfg sup rnd kdf opts hp,
      Index.full_pipeline_ok cfg rnd _ bp bs opts h10 hsl]
    simp [Index.genHashSel_trace]
  · rw [Index.hasher_eq_saltOnly cfg sup rnd kdf opts hp hs,
      Index.salt_pipeline_ok cfg rnd _ bs opts hsl]
    simp [Index.genHashSel_trace]
  · rw [Index.hasher_eq_direct cfg sup rnd kdf opts hp hs]
    simp [Index.genHashSel_trace]

/-- C1, witness: three concrete requests, one per row of the decision
table; in the first the supplied (string) salt is ignored because the
password is missing, in the third the supplied base64 salt QUFB is
decoded to raw bytes for the direct derivation. -/
theorem c1_witness :
    (Index.hasher ⟨some 2, some 1, some 3, some "sha1"⟩ true
        (fun n => match n with
          | some k => Except.ok (List.replicate k 7)
          | none => Except.error ⟨"u"⟩)
        (fun _ _ _ _ _ => Except.ok (JSVal.buf [1]))
        ⟨JSVal.undef, JSVal.str "IGNORED"⟩).2 =
      [ExtCall.randomBytesCall (some 10), ExtCall.randomBytesCall (some 2),
       ExtCall.kdfCall (JSVal.str (base64encode (List.replicate 10 7)))
         (JSVal.buf (List.replicate 2 7)) (some 1) (some 3) (some "sha1")] ∧
    (Index.hasher ⟨some 2, some 1, some 3, some "sha1"⟩ true
        (fun n => match n with
          | some k => Except.ok (List.replicate k 7)
          | none => Except.error ⟨"u"⟩)
        (fun _ _ _ _ _ => Except.ok (JSVal.buf [1]))
        ⟨JSVal.str "pw", JSVal.undef⟩).2 =
      [ExtCall.randomBytesCall (some 2),
       ExtCall.kdfCall (JSVal.str "pw") (JSVal.buf (List.replicate 2 7))
         (some 1) (some 3) (some "sha1")] ∧
    (Index.hasher ⟨some 2, some 1, some 3, some "sha1"⟩ true
        (fun n => match n with
          | some k => Except.ok (List.replicate k 7)
          | none => Except.error ⟨"u"⟩)
        (fun _ _ _ _ _ => Except.ok (JSVal.buf [1]))
        ⟨JSVal.str "pw", JSVal.str "QUFB"⟩).2 =
      [ExtCall.kdfCall (JSVal.str "pw") (JSVal.buf (base64decode "QUFB"))
         (some 1) (some 3) (some "sha1")] :=
  ⟨(c1_decision_table ⟨some 2, some 1, some 3, some "sha1"⟩ true
      (fun n => match n with
        | some k => Except.ok (List.replicate k 7)
        | none => Except.error ⟨"u"⟩)
      (fun _ _ _ _ _ => Except.ok (JSVal.buf [1]))
      ⟨JSVal.undef, JSVal.str "IGNORED"⟩ (List.replicate 10 7) (List.replicate 2 7)).1
      rfl rfl rfl,
   (c1_decision_table ⟨some 2, some 1, some 3, some "sha1"⟩ true
      (fun n => match n with
        | some k => Except.ok (List.replicate k 7)
        | none => Except.error ⟨"u"⟩)
      (fun _ _ _ _ _ => Except.ok (JSVal.buf [1]))
      ⟨JSVal.str "pw", JSVal.undef⟩ (List.replicate 10 7) (List.replicate 2 7)).2.1
      rfl rfl rfl,
   (c1_decision_table ⟨some 2, some 1, some 3, some "sha1"⟩ true
      (fun n => match n with
        | some k => Except.ok (List.replicate k 7)
        | none => Except.error ⟨"u"⟩)
      (fun _ _ _ _ _ => Except.ok (JSVal.buf [1]))
      ⟨JSVal.str "pw", JSVal.str "QUFB"⟩ [] []).2.2 rfl rfl⟩

/-- C2: when the random source fails at the step where the pipeline
consumes it, the completion callback receives exactly that error with
the password, salt and hash arguments undefined, the trace ends at the
failing call, and the derivation step is never invoked (every call in
the trace is a random-source call). -/
theorem c2_random_failure_failfast (cfg : Config) (sup : Bool) (rnd : RandomSource)
    (kdf : Kdf) (opts : IOptions) (e : JSError) (tr : List ExtCall)
    (h : RandomFailure cfg rnd opts e tr) :
    Index.hasher cfg sup rnd kdf opts = (.called (some e) .undef .undef .undef, tr) ∧
    ∀ c ∈ tr, c.isRandom = true := by
  cases h with
  | passFailed hp h10 =>
    refine ⟨?_, ?_⟩
    · rw [Index.hasher_eq_full cfg sup rnd kdf opts hp]
      exact Index.full_pipeline_passFail cfg rnd _ opts e h10
    · intro c hc
      simp only [List.mem_singleton] at hc
      subst hc
      rfl
  | saltFailedAfterPass bp hp h10 hsl =>
    refine ⟨?_, ?_⟩
    · rw [Index.hasher_eq_full cfg sup rnd kdf opts hp]
      exact Index.full_pipeline_saltFail cfg rnd _ opts bp e h10 hsl
    · intro c hc
      simp only [List.mem_cons, List.not_mem_nil, or_false] at hc
      rcases hc with rfl | rfl <;> rfl
  | saltFailed hp hs hsl =>
    refine ⟨?_, ?_⟩
    · rw [Index.hasher_eq_saltOnly cfg sup rnd kdf opts hp hs]
      exact Index.salt_pipeline_fail cfg rnd _ opts e hsl
    · intro c hc
      simp only [List.mem_singleton] at hc
      subst hc
      rfl

/-- C2, witness: a concrete run whose very first random draw fails ends
with the callback receiving that error and no values, after a trace of
one random-source call. -/
theorem c2_witness :
    Index.hasher ⟨some 2, some 1, some 3, some "sha1"⟩ true
        (fun _ => Except.error ⟨"entropy"⟩) (fun _ _ _ _ _ => Except.ok (JSVal.buf [1]))
        ⟨JSVal.undef, JSVal.undef⟩ =
      (.called (some ⟨"entropy"⟩) .undef .undef .undef,
       [ExtCall.randomBytesCall (some 10)]) ∧
    ∀ c ∈ [ExtCall.randomBytesCall (some 10)], c.isRandom = true :=
  c2_random_failure_failfast ⟨some 2, some 1, some 3, some "sha1"⟩ true
    (fun _ => Except.error ⟨"entropy"⟩) (fun _ _ _ _ _ => Except.ok (JSVal.buf [1]))
    ⟨JSVal.undef, JSVal.undef⟩ ⟨"entropy"⟩ [ExtCall.randomBytesCall (some 10)]
    (RandomFailure.passFailed rfl rfl)

/-- C3, counterexample: a configuration object that sets only saltLength
leaves iterations, keyLength and digest undefined — they are not resolved
to the documented defaults 10000, 128 and sha1. -/
theorem c3_counterexample :
    Index.resolveConfig (some ⟨some 16, none, none, none⟩) = ⟨some 16, none, none, none⟩ ∧
    Index.resolveConfig (some ⟨some 16, none, none, none⟩) ≠
      ⟨some 16, some 10000, some 128, some "sha1"⟩ := by
  exact ⟨rfl, by decide⟩

/-- C3, amended: build applies the defaults saltLength 64, iterations
10000, keyLength 128 and digest sha1 only when the caller passes no
configuration object at all; when an object is supplied every option is
read off it verbatim, and an option the object leaves unspecified
resolves to undefined, not to its default. -/
theorem c3_defaults_all_or_nothing :
    Index.resolveConfig none = ⟨some 64, some 10000, some 128, some "sha1"⟩ ∧
    (∀ sup : Bool, Index.build sup none = .ok ⟨some 64, some 10000, some 128, some "sha1"⟩) ∧
    (∀ o : GenerateOption,
      Index.resolveConfig (some o) = ⟨o.saltLength, o.iterations, o.keyLength, o.digest⟩) := by
  refine ⟨rfl, fun sup => by cases sup <;> rfl, fun o => rfl⟩

/-- C6: build throws its synchronous configuration error exactly when the
resolved digest differs from the default sha1 on a runtime without digest
support, and the asynchronous pipeline itself never surfaces that error:
every error the completion callback ever receives is an error some call
to the random source returned. -/
theorem c6_digest_capability_error (sup : Bool) (options : Option GenerateOption)
    (cfg : Config) (rnd : RandomSource) (kdf : Kdf) (opts : IOptions)
    (e : JSError) (pw sa ha : JSVal) (tr : List ExtCall) :
    (Index.buildThrew sup options = true ↔
      ((Index.resolveConfig options).digest ≠ some "sha1" ∧ sup = false)) ∧
    (Index.hasher cfg sup rnd kdf opts = (.called (some e) pw sa ha, tr) →
      ∃ n, rnd n = .error e) := by
  constructor
  · unfold Index.buildThrew Index.build
    by_cases hd : (Index.resolveConfig options).digest = some "sha1"
    · cases sup <;> simp [hd]
    · cases sup <;> simp [hd]
  · intro hrun
    by_cases hp : opts.password.isString = false
    · rw [Index.hasher_eq_full cfg sup rnd kdf opts hp] at hrun
      cases h10 : rnd (some 10) with
      | error e0 =>
        rw [Index.full_pipeline_passFail cfg rnd _ opts e0 h10] at hrun
        obtain ⟨heq, -⟩ := Prod.mk.injEq .. ▸ hrun
        cases heq
        exact ⟨some 10, h10⟩
      | ok bp =>
        cases hsl : rnd cfg.saltLength with
        | error e1 =>
          rw [Index.full_pipeline_saltFail cfg rnd _ opts bp e1 h10 hsl] at hrun
          obtain ⟨heq, -⟩ := Prod.mk.injEq .. ▸ hrun
          cases heq
          exact ⟨cfg.saltLength, hsl⟩
        | ok bs0 =>
          rw [Index.full_pipeline_ok cfg rnd _ bp bs0 opts h10 hsl] at hrun
          rcases hA : (if sup then Index.genHashWithDigest cfg kdf
              else Index.genHashWithoutDigest cfg kdf)
              ⟨JSVal.str (base64encode bp), JSVal.buf bs0⟩ with ⟨o1, tr2⟩
          rw [hA] at hrun
          simp only [Prod.mk.injEq] at hrun
          obtain ⟨ho1, -⟩ := hrun
          subst ho1
          obtain ⟨-, -, -, herr, -⟩ := (Index.genHashSel_called_iff ..).mp hA
          exact absurd herr (by simp)
    · by_cases hs : opts.salt.isString = false
      · rw [Index.hasher_eq_saltOnly cfg sup rnd kdf opts (by revert hp; cases opts.password.isString <;> simp) hs] at hrun
        cases hsl : rnd cfg.saltLength with
        | error e1 =>
          rw [Index.salt_pipeline_fail cfg rnd _ opts e1 hsl] at hrun
          obtain ⟨heq, -⟩ := Prod.mk.injEq .. ▸ hrun
          cases heq
          exact ⟨cfg.saltLength, hsl⟩
        | ok bs0 =>
          rw [Index.salt_pipeline_ok cfg rnd _ bs0 opts hsl] at hrun
          rcases hA : (if sup then Index.genHashWithDigest cfg kdf
              else Index.genHashWithoutDigest cfg kdf)
              ⟨opts.password, JSVal.buf bs0⟩ with ⟨o1, tr2⟩
          rw [hA] at hrun
          simp only [Prod.mk.injEq] at hrun
          obtain ⟨ho1, -⟩ := hrun
          subst ho1
          obtain ⟨-, -, -, herr, -⟩ := (Index.genHashSel_called_iff ..).mp hA
          exact absurd herr (by simp)
      · rw [Index.hasher_eq_direct cfg sup rnd kdf opts
            (by revert hp; cases opts.password.isString <;> simp)
            (by revert hs; cases opts.salt.isString <;> simp)] at hrun
        obtain ⟨-, -, -, herr, -⟩ := (Index.genHashSel_called_iff ..).mp hrun
        exact absurd herr (by simp)

/-- C4, counterexample: an invocation that fails at the derivation step
does not invoke the callback with the error and three undefined
arguments — the derivation continuation dereferences the absent hash and
throws, so the callback never fires at all. -/
theorem c4_counterexample :
    Index.hasher ⟨some 2, some 1, some 3, some "sha1"⟩ true
        (fun n => match n with
          | some k => Except.ok (List.replicate k 7)
          | none => Except.error ⟨"u"⟩)
        (fun _ _ _ _ _ => Except.error ⟨"bad params"⟩)
        ⟨JSVal.str "pw", JSVal.str "QUFB"⟩ =
      (.crashed tsUndefMsg,
       [ExtCall.kdfCall (JSVal.str "pw") (JSVal.buf [65, 65, 65])
          (some 1) (some 3) (some "sha1")]) ∧
    Outcome.callbackInvoked
      (Index.hasher ⟨some 2, some 1, some 3, some "sha1"⟩ true
        (fun n => match n with
          | some k => Except.ok (List.replicate k 7)
          | none => Except.error ⟨"u"⟩)
        (fun _ _ _ _ _ => Except.error ⟨"bad params"⟩)
        ⟨JSVal.str "pw", JSVal.str "QUFB"⟩).1 = false := by
  exact ⟨rfl, rfl⟩

/-- C4, amended: an invocation that fails at a random-source step invokes
the callback with that error and the password, salt and hash arguments
undefined — never a partial result; an invocation whose derivation step
fails never invokes the callback: the continuation throws a TypeError
while stringifying the absent hash. -/
theorem c4_error_propagation (cfg : Config) (sup : Bool) (rnd : RandomSource)
    (kdf : Kdf) (opts : IOptions) (e eK : JSError) (tr : List ExtCall) :
    (RandomFailure cfg rnd opts e tr →
      Index.hasher cfg sup rnd kdf opts = (.called (some e) .undef .undef .undef, tr)) ∧
    ((∀ n, ∃ b, rnd n = .ok b) →
     (∀ pw sa it kl dg, kdf pw sa it kl dg = .error eK) →
      (Index.hasher cfg sup rnd kdf opts).1 = .crashed tsUndefMsg) := by
  constructor
  · intro h
    cases h with
    | passFailed hp h10 =>
      rw [Index.hasher_eq_full cfg sup rnd kdf opts hp]
      exact Index.full_pipeline_passFail cfg rnd _ opts e h10
    | saltFailedAfterPass bp hp h10 hbs =>
      rw [Index.hasher_eq_full cfg sup rnd kdf opts hp]
      exact Index.full_pipeline_saltFail cfg rnd _ opts bp e h10 hbs
    | saltFailed hp hs hbs =>
      rw [Index.hasher_eq_saltOnly cfg sup rnd kdf opts hp hs]
      exact Index.salt_pipeline_fail cfg rnd _ opts e hbs
  · intro hrnd hkdf
    by_cases hp : opts.password.isString = false
    · obtain ⟨bp, h10⟩ := hrnd (some 10)
      obtain ⟨bs, hbs⟩ := hrnd cfg.saltLength
      rw [Index.hasher_eq_full cfg sup rnd kdf opts hp,
        Index.full_pipeline_ok cfg rnd _ bp bs opts h10 hbs,
        Index.genHashSel_kdf_error cfg kdf sup _ bs eK (hkdf _ _ _ _ _)]
    · by_cases hs : opts.salt.isString = false
      · obtain ⟨bs, hbs⟩ := hrnd cfg.saltLength
        rw [Index.hasher_eq_saltOnly cfg sup rnd kdf opts
            (by revert hp; cases opts.password.isString <;> simp) hs,
          Index.salt_pipeline_ok cfg rnd _ bs opts hbs,
          Index.genHashSel_kdf_error cfg kdf sup _ bs eK (hkdf _ _ _ _ _)]
      · rw [Index.hasher_eq_direct cfg sup rnd kdf opts
            (by revert hp; cases opts.password.isString <;> simp)
            (by revert hs; cases opts.salt.isString <;> simp),
          Index.genHashSel_kdf_error cfg kdf sup _ _ eK (hkdf _ _ _ _ _)]

/-- C4, witness: with bytes always available and a failing derivation
primitive, a concrete full-pipeline run truly ends in the thrown
TypeError rather than a callback invocation. -/
theorem c4_witness :
    (Index.hasher ⟨some 2, some 1, some 3, some "sha1"⟩ true
        (fun n => match n with
          | some k => Except.ok (List.replicate k 7)
          | none => Except.ok [])
        (fun _ _ _ _ _ => Except.error ⟨"bad params"⟩)
        ⟨JSVal.undef, JSVal.undef⟩).1 = .crashed tsUndefMsg :=
  (c4_error_propagation ⟨some 2, some 1, some 3, some "sha1"⟩ true
    (fun n => match n with
      | some k => Except.ok (List.replicate k 7)
      | none => Except.ok [])
    (fun _ _ _ _ _ => Except.error ⟨"bad params"⟩)
    ⟨JSVal.undef, JSVal.undef⟩ ⟨"x"⟩ ⟨"bad params"⟩ []).2
    (fun n => match n with
      | some k => ⟨List.replicate k 7, rfl⟩
      | none => ⟨[], rfl⟩)
    (fun _ _ _ _ _ => rfl)

/-- C5: when both password and salt are supplied as strings and the
supplied salt is a valid base64 string (the base64 encoding of some byte
sequence), any callback invocation of that run carries a salt argument
equal, character for character, to the supplied string: decode followed
by re-encode reproduces it exactly. -/
theorem c5_salt_roundtrip (cfg : Config) (sup : Bool) (rnd : RandomSource) (kdf : Kdf)
    (p s : String) (b : List Nat) (err : Option JSError) (pw sa ha : JSVal)
    (tr : List ExtCall) (hb : ValidBytes b) (hs : base64encode b = s)
    (hrun : Index.hasher cfg sup rnd kdf ⟨JSVal.str p, JSVal.str s⟩ =
      (.called err pw sa ha, tr)) :
    sa = JSVal.str s := by
  rw [Index.hasher_eq_direct cfg sup rnd kdf ⟨JSVal.str p, JSVal.str s⟩ rfl rfl] at hrun
  have hrun2 : (if sup then Index.genHashWithDigest cfg kdf
      else Index.genHashWithoutDigest cfg kdf)
      ⟨JSVal.str p, JSVal.buf (base64decode s)⟩ = (.called err pw sa ha, tr) := hrun
  obtain ⟨out, -, -, -, -, hsa, -, -⟩ := (Index.genHashSel_called_iff ..).mp hrun2
  rw [hsa, ← hs, decode_encode b hb]

/-- C5, witness: the valid base64 salt QUFB (the encoding of bytes
65 65 65) comes back from a concrete successful run unchanged. -/
theorem c5_witness : JSVal.str "QUFB" = JSVal.str "QUFB" :=
  c5_salt_roundtrip ⟨some 2, some 1, some 3, some "sha1"⟩ true
    (fun _ => Except.error ⟨"u"⟩) (fun _ _ _ _ _ => Except.ok (JSVal.buf [9]))
    "pw" "QUFB" [65, 65, 65] none (JSVal.str "pw") (JSVal.str "QUFB")
    (JSVal.str (base64encode [9]))
    [ExtCall.kdfCall (JSVal.str "pw") (JSVal.buf [65, 65, 65])
      (some 1) (some 3) (some "sha1")]
    (fun x hx => by simp at hx; omega) rfl rfl

/-- C6, witness: with an always-failing random source the callback error
of a concrete run is an error the random source returned. -/
theorem c6_witness :
    ∃ n, (fun _ => Except.error ⟨"entropy"⟩ : RandomSource) n =
      Except.error (⟨"entropy"⟩ : JSError) :=
  (c6_digest_capability_error true none ⟨some 2, some 1, some 3, some "sha1"⟩
    (fun _ => Except.error ⟨"entropy"⟩) (fun _ _ _ _ _ => Except.ok (JSVal.buf [1]))
    ⟨JSVal.undef, JSVal.undef⟩ ⟨"entropy"⟩ JSVal.undef JSVal.undef JSVal.undef
    [ExtCall.randomBytesCall (some 10)]).2 rfl

/-- C7: for every successful invocation (callback fired with no error)
under honest primitives — the random source returns as many valid bytes
as requested and the derivation primitive returns a keyLength-byte
result — the hash argument is a base64 string decoding to keyLength
bytes, and whenever the salt was generated by the pipeline (password or
salt missing from the request) the salt argument is a base64 string
decoding to saltLength bytes. -/
theorem c7_length_contracts (cfg : Config) (sup : Bool) (rnd : RandomSource) (kdf : Kdf)
    (opts : IOptions) (sl kl : Nat) (pw sa ha : JSVal) (tr : List ExtCall)
    (hcfgSl : cfg.saltLength = some sl) (hcfgKl : cfg.keyLength = some kl)
    (hrnd : ∀ n b, rnd (some n) = .ok b → b.length = n ∧ ValidBytes b)
    (hkdf : ∀ p s it dg out, kdf p s it cfg.keyLength dg = .ok out →
      (hashBytes out).length = kl ∧ ValidBytes (hashBytes out))
    (hrun : Index.hasher cfg sup rnd kdf opts = (.called none pw sa ha, tr)) :
    (∃ hb, ha = JSVal.str hb ∧ (base64decode hb).length = kl) ∧
    ((opts.password.isString = false ∨ opts.salt.isString = false) →
      ∃ sb, sa = JSVal.str sb ∧ (base64decode sb).length = sl) := by
  by_cases hp : opts.password.isString = false
  · rw [Index.hasher_eq_full cfg sup rnd kdf opts hp] at hrun
    cases h10 : rnd (some 10) with
    | error e0 =>
      rw [Index.full_pipeline_passFail cfg rnd _ opts e0 h10] at hrun
      simp at hrun
    | ok bp =>
      cases hbs : rnd cfg.saltLength with
      | error e1 =>
        rw [Index.full_pipeline_saltFail cfg rnd _ opts bp e1 h10 hbs] at hrun
        simp at hrun
      | ok bs =>
        rw [Index.full_pipeline_ok cfg rnd _ bp bs opts h10 hbs] at hrun
        rcases hA : (if sup then Index.genHashWithDigest cfg kdf
            else Index.genHashWithoutDigest cfg kdf)
            ⟨JSVal.str (base64encode bp), JSVal.buf bs⟩ with ⟨o1, tr2⟩
        rw [hA] at hrun
        simp only [Prod.mk.injEq] at hrun
        obtain ⟨ho1, -⟩ := hrun
        subst ho1
        obtain ⟨out, hk, -, -, -, hsa, hha, -⟩ := (Index.genHashSel_called_iff ..).mp hA
        have hbsfacts := hrnd sl bs (hcfgSl ▸ hbs)
        have houtfacts := hkdf _ _ _ _ _ hk
        refine ⟨⟨base64encode (hashBytes out), hha, ?_⟩, fun _ => ⟨base64encode bs, hsa, ?_⟩⟩
        · rw [decode_encode_length _ houtfacts.2]
          exact houtfacts.1
        · rw [decode_encode_length _ hbsfacts.2]
          exact hbsfacts.1
  · have hp2 : opts.password.isString = true := by
      revert hp; cases opts.password.isString <;> simp
    by_cases hs : opts.salt.isString = false
    · rw [Index.hasher_eq_saltOnly cfg sup rnd kdf opts hp2 hs] at hrun
      cases hbs : rnd cfg.saltLength with
      | error e1 =>
        rw [Index.salt_pipeline_fail cfg rnd _ opts e1 hbs] at hrun
        simp at hrun
      | ok bs =>
        rw [Index.salt_pipeline_ok cfg rnd _ bs opts hbs] at hrun
        rcases hA : (if sup then Index.genHashWithDigest cfg kdf
            else Index.genHashWithoutDigest cfg kdf)
            ⟨opts.password, JSVal.buf bs⟩ with ⟨o1, tr2⟩
        rw [hA] at hrun
        simp only [Prod.mk.injEq] at hrun
        obtain ⟨ho1, -⟩ := hrun
        subst ho1
        obtain ⟨out, hk, -, -, -, hsa, hha, -⟩ := (Index.genHashSel_called_iff ..).mp hA
        have hbsfacts := hrnd sl bs (hcfgSl ▸ hbs)
        have houtfacts := hkdf _ _ _ _ _ hk
        refine ⟨⟨base64encode (hashBytes out), hha, ?_⟩, fun _ => ⟨base64encode bs, hsa, ?_⟩⟩
        · rw [decode_encode_length _ houtfacts.2]
          exact houtfacts.1
        · rw [decode_encode_length _ hbsfacts.2]
          exact hbsfacts.1
    · have hs2 : opts.salt.isString = true := by
        revert hs; cases opts.salt.isString <;> simp
      rw [Index.hasher_eq_direct cfg sup rnd kdf opts hp2 hs2] at hrun
      obtain ⟨out, hk, -, -, -, -, hha, -⟩ := (Index.genHashSel_called_iff ..).mp hrun
      have houtfacts := hkdf _ _ _ _ _ hk
      refine ⟨⟨base64encode (hashBytes out), hha, ?_⟩, fun hcond => ?_⟩
      · rw [decode_encode_length _ houtfacts.2]
        exact houtfacts.1
      · rcases hcond with hcond | hcond
        · rw [hp2] at hcond
          cases hcond
        · rw [hs2] at hcond
          cases hcond

/-- C7, witness: a concrete successful run with saltLength 2 and
keyLength 3 whose salt decodes to 2 bytes and whose hash decodes to
3 bytes. -/
theorem c7_witness :
    (∃ hb, JSVal.str (base64encode (List.replicate 3 65)) = JSVal.str hb ∧
      (base64decode hb).length = 3) ∧
    (((JSVal.str "pw").isString = false ∨ (JSVal.undef).isString = false) →
      ∃ sb, JSVal.str (base64encode (List.replicate 2 7)) = JSVal.str sb ∧
        (base64decode sb).length = 2) :=
  c7_length_contracts ⟨some 2, some 1, some 3, some "sha1"⟩ true
    (fun n => match n with
      | some k => Except.ok (List.replicate k 7)
      | none => Except.error ⟨"u"⟩)
    (fun _ _ _ kl _ => match kl with
      | some k => Except.ok (JSVal.buf (List.replicate k 65))
      | none => Except.error ⟨"kl"⟩)
    ⟨JSVal.str "pw", JSVal.undef⟩ 2 3 (JSVal.str "pw")
    (JSVal.str (base64encode (List.replicate 2 7)))
    (JSVal.str (base64encode (List.replicate 3 65)))
    [ExtCall.randomBytesCall (some 2),
     ExtCall.kdfCall (JSVal.str "pw") (JSVal.buf (List.replicate 2 7))
       (some 1) (some 3) (some "sha1")]
    rfl rfl
    (fun n b hb => by
      injection hb with hb2
      subst hb2
      refine ⟨by simp, fun x hx => ?_⟩
      have := List.eq_of_mem_replicate hx
      omega)
    (fun p s it dg out hout => by
      injection hout with hout2
      subst hout2
      refine ⟨by simp [hashBytes], fun x hx => ?_⟩
      simp [hashBytes] at hx
      omega)
    rfl

/-- C8: when the request supplies a password string but no salt string,
the callback's password argument is exactly the supplied password and
the salt argument is the base64 encoding of precisely the bytes the
random source freshly produced for the generate-salt step, never a
caller-supplied value. -/
theorem c8_fills_gaps_never_overwrites (cfg : Config) (sup : Bool) (rnd : RandomSource)
    (kdf : Kdf) (p : String) (slt : JSVal) (bs : List Nat) (out : JSVal)
    (hslt : slt.isString = false)
    (hbs : rnd cfg.saltLength = .ok bs)
    (hkdf : kdf (JSVal.str p) (JSVal.buf bs) cfg.iterations cfg.keyLength
      (if sup then cfg.digest else none) = .ok out)
    (hout : out ≠ JSVal.undef) :
    Index.hasher cfg sup rnd kdf ⟨JSVal.str p, slt⟩ =
      (.called none (JSVal.str p) (JSVal.str (base64encode bs))
        (JSVal.str (base64encode (hashBytes out))),
       [ExtCall.randomBytesCall cfg.saltLength,
        ExtCall.kdfCall (JSVal.str p) (JSVal.buf bs) cfg.iterations cfg.keyLength
          (if sup then cfg.digest else none)]) := by
  rw [Index.hasher_eq_saltOnly cfg sup rnd kdf ⟨JSVal.str p, slt⟩ rfl hslt,
    Index.salt_pipeline_ok cfg rnd _ bs ⟨JSVal.str p, slt⟩ hbs]
  have hgh : (if sup then Index.genHashWithDigest cfg kdf
      else Index.genHashWithoutDigest cfg kdf) ⟨JSVal.str p, JSVal.buf bs⟩ =
      (.called none (JSVal.str p) (JSVal.str (base64encode bs))
        (JSVal.str (base64encode (hashBytes out))),
       [ExtCall.kdfCall (JSVal.str p) (JSVal.buf bs) cfg.iterations cfg.keyLength
         (if sup then cfg.digest else none)]) :=
    (Index.genHashSel_called_iff ..).mpr ⟨out, hkdf, hout, rfl, rfl, rfl, rfl, rfl⟩
  rw [hgh]

/-- C8, witness: a concrete run with supplied password pw and no salt
returns pw unchanged and the base64 encoding of the two fresh random
bytes. -/
theorem c8_witness :
    Index.hasher ⟨some 2, some 1, some 3, some "sha1"⟩ true
        (fun n => match n with
          | some k => Except.ok (List.replicate k 7)
          | none => Except.error ⟨"u"⟩)
        (fun _ _ _ _ _ => Except.ok (JSVal.buf [9]))
        ⟨JSVal.str "pw", JSVal.undef⟩ =
      (.called none (JSVal.str "pw") (JSVal.str (base64encode (List.replicate 2 7)))
        (JSVal.str (base64encode (hashBytes (JSVal.buf [9])))),
       [ExtCall.randomBytesCall (some 2),
        ExtCall.kdfCall (JSVal.str "pw") (JSVal.buf (List.replicate 2 7))
          (some 1) (some 3) (some "sha1")]) :=
  c8_fills_gaps_never_overwrites ⟨some 2, some 1, some 3, some "sha1"⟩ true
    (fun n => match n with
      | some k => Except.ok (List.replicate k 7)
      | none => Except.error ⟨"u"⟩)
    (fun _ _ _ _ _ => Except.ok (JSVal.buf [9]))
    "pw" JSVal.undef (List.replicate 2 7) (JSVal.buf [9])
    rfl rfl rfl (by simp)

/-- C9, counterexample: in src/src/index.ts the two derivation paths do
not invoke the key-derivation primitive with the same arguments — the
with-digest path passes the configured digest sha1 while the
without-digest path passes no digest — and against a primitive that
rejects the digest-less call form their callback outcomes differ. -/
theorem c9_counterexample :
    (Index.genHashWithDigest ⟨some 2, some 1, some 3, some "sha1"⟩
        (fun _ _ _ _ dg => match dg with
          | some _ => Except.ok (JSVal.buf [1])
          | none => Except.error ⟨"nodigest"⟩)
        ⟨JSVal.str "pw", JSVal.buf [5]⟩).2 =
      [ExtCall.kdfCall (JSVal.str "pw") (JSVal.buf [5]) (some 1) (some 3) (some "sha1")] ∧
    (Index.genHashWithoutDigest ⟨some 2, some 1, some 3, some "sha1"⟩
        (fun _ _ _ _ dg => match dg with
          | some _ => Except.ok (JSVal.buf [1])
          | none => Except.error ⟨"nodigest"⟩)
        ⟨JSVal.str "pw", JSVal.buf [5]⟩).2 =
      [ExtCall.kdfCall (JSVal.str "pw") (JSVal.buf [5]) (some 1) (some 3) none] ∧
    Index.genHashWithDigest ⟨some 2, some 1, some 3, some "sha1"⟩
        (fun _ _ _ _ dg => match dg with
          | some _ => Except.ok (JSVal.buf [1])
          | none => Except.error ⟨"nodigest"⟩)
        ⟨JSVal.str "pw", JSVal.buf [5]⟩ ≠
      Index.genHashWithoutDigest ⟨some 2, some 1, some 3, some "sha1"⟩
        (fun _ _ _ _ dg => match dg with
          | some _ => Except.ok (JSVal.buf [1])
          | none => Except.error ⟨"nodigest"⟩)
        ⟨JSVal.str "pw", JSVal.buf [5]⟩ := by
  refine ⟨rfl, rfl, by decide⟩

/-- C9, amended: in the built artifact src/unnamed/part_000 the
with-digest and without-digest derivation paths invoke the
key-derivation primitive with the same arguments (both passing the
configured digest) and deliver identical callback outputs for every
request state, configuration and primitive — there the capability branch
does not affect behaviour. -/
theorem c9_dist_paths_extensionally_equal (cfg : Config) (kdf : Kdf) (opts : IOptions) :
    Dist.genHashWithoutDigest cfg kdf opts = Dist.genHashWithDigest cfg kdf opts := rfl

/-- C10: when the secure random source fails during the generate-password
step, the step (in the TypeScript source and in the built artifact alike)
passes exactly that error to its continuation and hands the request
object on unchanged — the password slot is not mutated. -/
theorem c10_genPass_atomic_on_error (rnd : RandomSource) (opts : IOptions) (e : JSError)
    (h : rnd (some 10) = .error e) :
    Index.genPass rnd opts = (some e, opts, [ExtCall.randomBytesCall (some 10)]) ∧
    Dist.genPass rnd opts = (some e, opts, [ExtCall.randomBytesCall (some 10)]) := by
  simp [Index.genPass, Dist.genPass, h]

/-- C10, witness: a concrete failing random source leaves a concrete
request untouched and surfaces the error. -/
theorem c10_witness :
    Index.genPass (fun _ => Except.error ⟨"entropy"⟩) ⟨JSVal.str "keep", JSVal.undef⟩ =
      (some ⟨"entropy"⟩, ⟨JSVal.str "keep", JSVal.undef⟩,
       [ExtCall.randomBytesCall (some 10)]) ∧
    Dist.genPass (fun _ => Except.error ⟨"entropy"⟩) ⟨JSVal.str "keep", JSVal.undef⟩ =
      (some ⟨"entropy"⟩, ⟨JSVal.str "keep", JSVal.undef⟩,
       [ExtCall.randomBytesCall (some 10)]) :=
  c10_genPass_atomic_on_error (fun _ => Except.error ⟨"entropy"⟩)
    ⟨JSVal.str "keep", JSVal.undef⟩ ⟨"entropy"⟩ rfl

end Pbkdf2Pw
